import Mathlib

/-!
A shallow embedding of the keyfile-based polkit backend (the rule compiler,
match evaluator, rule-set loader and admin-identity harvester of
src/polkitbackend/polkitbackendpolicyfile.c and
src/polkitbackend/polkitbackendkeyfileauthority.c), together with theorems
checking the natural-language specification against it.

Strings are modelled as Lean `String` values; the byte-level C string
operations (g_strstrip, g_ascii_strdown, strstr, strcmp, strrchr) are
embedded below as pure functions over the character list of a `String`,
which agrees with the C byte semantics on ASCII data.
-/

/-- Character class of g_ascii_isspace: space, tab, newline, vertical tab,
form feed, carriage return. -/
def g_ascii_isspace (c : Char) : Bool :=
  c = ' ' || c = '\t' || c = '\n' || c = Char.ofNat 11 || c = Char.ofNat 12 || c = '\r'

/-- g_strstrip: remove leading and trailing ASCII whitespace. The C function
mutates its argument in place and is idempotent; the embedding applies it at
every point of use, which matches the observable behaviour. -/
def g_strstrip (s : String) : String :=
  ⟨((s.data.dropWhile g_ascii_isspace).reverse.dropWhile g_ascii_isspace).reverse⟩

/-- g_ascii_strdown: lower-case the ASCII letters, leaving the rest alone. -/
def g_ascii_strdown (s : String) : String :=
  ⟨s.data.map (fun c => if 65 ≤ c.toNat ∧ c.toNat ≤ 90 then Char.ofNat (c.toNat + 32) else c)⟩

/-- strstr(haystack, needle) viewed as a Bool: does `needle` occur as a
contiguous substring of `haystack`?  (strstr also succeeds on the empty
needle, as does this embedding at i = 0.) -/
def strstr_found (haystack needle : String) : Bool :=
  (List.range (haystack.data.length + 1)).any fun i =>
    decide (needle.data <+: haystack.data.drop i)

/-- strcmp on character lists, by code point; agrees with byte order on
ASCII. Returns an Ordering in place of the C sign convention. -/
def strcmp_ord : List Char → List Char → Ordering
  | [], [] => .eq
  | [], _ :: _ => .lt
  | _ :: _, [] => .gt
  | a :: as, b :: bs =>
    if a.toNat < b.toNat then .lt
    else if b.toNat < a.toNat then .gt
    else strcmp_ord as bs

/-- The characters after the last '/' (strrchr(s, '/') + 1). The C caller
asserts that a '/' exists; on input without one this embedding returns the
whole string, a case the loader never produces. -/
def after_last_slash (l : List Char) : List Char :=
  (l.reverse.takeWhile (fun c => decide (c ≠ '/'))).reverse

/-- g_str_has_suffix. -/
def g_str_has_suffix (s ending : String) : Bool :=
  decide (ending.data <:+ s.data)

/-- The tri-state (in fact seven-valued) verdict enum PolkitImplicitAuthorization.
In C, UNKNOWN is -1 and NOT_AUTHORIZED is 0, so a zero-filled Policy struct
carries NOT_AUTHORIZED, not UNKNOWN, in its response fields. -/
inductive PolkitImplicitAuthorization
  | unknown
  | notAuthorized
  | authenticationRequired
  | administratorAuthenticationRequired
  | authenticationRequiredRetained
  | administratorAuthenticationRequiredRetained
  | authorized
deriving DecidableEq

/-- Modelled from the spec: the verdict vocabulary of
polkit_implicit_authorization_from_string (polkit library code, not among the
staged sources). Verdict strings are matched against the fixed textual names
of the verdicts; an unrecognized string yields no verdict. -/
def polkit_implicit_authorization_from_string (s : String) : Option PolkitImplicitAuthorization :=
  if s = "no" then some .notAuthorized
  else if s = "auth_self" then some .authenticationRequired
  else if s = "auth_admin" then some .administratorAuthenticationRequired
  else if s = "auth_self_keep" then some .authenticationRequiredRetained
  else if s = "auth_admin_keep" then some .administratorAuthenticationRequiredRetained
  else if s = "yes" then some .authorized
  else none

/-- policy_string_to_result: lower-case, strip, then look the name up;
an unrecognized name becomes UNKNOWN. -/
def policy_string_to_result (inp : String) : PolkitImplicitAuthorization :=
  match polkit_implicit_authorization_from_string (g_strstrip (g_ascii_strdown inp)) with
  | none => .unknown
  | some r => r

/-- The PF_CONSTRAINT_* bitmask of a Policy, one Bool per bit. -/
structure PolicyConstraints where
  actions : Bool
  actionContains : Bool
  subjectActive : Bool
  subjectLocal : Bool
  unixGroups : Bool
  unixNames : Bool
  netGroups : Bool
  result : Bool
  resultInverse : Bool
deriving DecidableEq

def no_constraints : PolicyConstraints :=
  ⟨false, false, false, false, false, false, false, false, false⟩

/-- One compiled rule (struct Policy). The `next` chain of the C struct is
represented by the position of the rule in a `List Policy`. -/
structure Policy where
  id : String
  actions : List String
  action_contains : List String
  unix_groups : List String
  unix_names : List String
  net_groups : List String
  require_active : Bool
  require_local : Bool
  response : PolkitImplicitAuthorization
  response_inverse : PolkitImplicitAuthorization
  constraints : PolicyConstraints
deriving DecidableEq

/-- g_new0 (Policy, 1) with the id filled in: all lists empty, booleans
false, no constraint bits, and both response fields at the enum value 0,
which is NOT_AUTHORIZED (UNKNOWN is -1 in C). -/
def policy_new0 (section_id : String) : Policy :=
  { id := section_id
    actions := []
    action_contains := []
    unix_groups := []
    unix_names := []
    net_groups := []
    require_active := false
    require_local := false
    response := .notAuthorized
    response_inverse := .notAuthorized
    constraints := no_constraints }

/-- The per-request facts of struct PolicyContext that the matcher reads. -/
structure PolicyContext where
  subject_is_local : Bool
  subject_is_active : Bool
  groups : List String
  username : String
deriving DecidableEq

/-- One compiled file (struct PolicyFile): the two rule chains. The `next`
chain across files is represented by a `List PolicyFile`. -/
structure PolicyFile where
  normal : List Policy
  admin : List Policy
deriving DecidableEq

/-- The action test of policy_test: an entry of Actions matches after
stripping if it equals the action id or the wildcard "*"; an entry of
ActionContains matches after stripping if it occurs inside the action id
(strstr). Either loop setting `conditions` leaves the rule matched. -/
def policy_matches_action (p : Policy) (action_id : String) : Bool :=
  (p.constraints.actions &&
    p.actions.any fun a =>
      decide (g_strstrip a = action_id) || decide (g_strstrip a = "*"))
  ||
  (p.constraints.actionContains &&
    p.action_contains.any fun a => strstr_found action_id (g_strstrip a))

/-- The InUnixGroups double loop: one spec entry, stripped and with the
literal token %sudo% replaced by the build-configured wheel group, equal to
one context group. The wheel group (WHEEL_GROUP, set at build time) is a
parameter of the embedding. -/
def unix_groups_match (wheel : String) (ctx : PolicyContext) (p : Policy) : Bool :=
  p.unix_groups.any fun e =>
    ctx.groups.any fun g =>
      decide ((if g_strstrip e = "%sudo%" then wheel else g_strstrip e) = g)

/-- The InUserNames loop: one stripped entry equal to the context username. -/
def unix_names_match (ctx : PolicyContext) (p : Policy) : Bool :=
  p.unix_names.any fun e => decide (g_strstrip e = ctx.username)

/-- What the body of policy_test does between `id_matched = TRUE` and the
`unmatched:` label, for a rule whose action test passed.  `failed c` records
a `goto unmatched` with the `conditions` flag holding `c`: the SubjectActive
branch jumps WITHOUT clearing `conditions` (which is TRUE from the action
match), while the SubjectLocal, InUnixGroups and InUserNames branches clear
it first.  `passed r` is the fall-through to the end, where `conditions` is
TRUE and `response` holds the Result verdict if the Result bit is set. -/
inductive MatchedRuleOutcome
  | failed (conditions : Bool)
  | passed (response : PolkitImplicitAuthorization)
deriving DecidableEq

def test_matched_rule (wheel : String) (ctx : PolicyContext) (p : Policy) : MatchedRuleOutcome :=
  if p.constraints.subjectActive && (ctx.subject_is_active != p.require_active) then
    .failed true
  else if p.constraints.subjectLocal && (ctx.subject_is_local != p.require_local) then
    .failed false
  else if p.constraints.unixGroups && !unix_groups_match wheel ctx p then
    .failed false
  else if p.constraints.unixNames && !unix_names_match ctx p then
    .failed false
  else
    .passed (if p.constraints.result then p.response else .unknown)

/-- policy_test over a rule chain.  An unmatched action falls through to the
next rule (UNKNOWN at the end of the chain).  A matched rule whose
constraints jumped to `unmatched` with `conditions` FALSE returns the
ResultInverse verdict when that bit is set, even when that verdict is
UNKNOWN; otherwise, and on a fall-through whose response is UNKNOWN,
evaluation continues down the chain. -/
def policy_test (wheel action_id : String) (ctx : PolicyContext) : List Policy → PolkitImplicitAuthorization
  | [] => .unknown
  | p :: rest =>
    if policy_matches_action p action_id then
      match test_matched_rule wheel ctx p with
      | .failed conditions =>
        if !conditions && p.constraints.resultInverse then p.response_inverse
        else policy_test wheel action_id ctx rest
      | .passed response =>
        if response = .unknown then policy_test wheel action_id ctx rest
        else response
    else
      policy_test wheel action_id ctx rest

/-- policy_file_test: the normal chain of each file in turn, while the
verdict stays UNKNOWN. -/
def policy_file_test (wheel action_id : String) (ctx : PolicyContext) : List PolicyFile → PolkitImplicitAuthorization
  | [] => .unknown
  | f :: rest =>
    let response := policy_test wheel action_id ctx f.normal
    if response = .unknown then policy_file_test wheel action_id ctx rest
    else response

example : policy_test "wheel" "org.example.action" { subject_is_local := true, subject_is_active := true, groups := [], username := "u" }
    [{ policy_new0 "r1" with
        actions := ["org.example.action"]
        response := .authorized
        constraints := { no_constraints with actions := true, result := true } }] = .authorized := by
  decide

/-! ## The rule compiler (policy_load and friends)

The C code reads its input through GLib's GKeyFile (external library code).
A parsed key file is modelled abstractly: a list of named groups, each
holding key/value pairs whose values are already typed as a string, a string
list, or a boolean, standing for what g_key_file_get_string,
g_key_file_get_string_list and g_key_file_get_boolean would deliver; a key
held at a different type models the corresponding GLib accessor error. -/

inductive KfValue
  | vstr (s : String)
  | vlist (l : List String)
  | vbool (b : Bool)
deriving DecidableEq

structure KeyFileGroup where
  name : String
  keys : List (String × KfValue)
deriving DecidableEq

structure KeyFile where
  groups : List KeyFileGroup
deriving DecidableEq

def KeyFile.findGroup (kf : KeyFile) (g : String) : Option KeyFileGroup :=
  kf.groups.find? fun gr => gr.name = g

def KeyFile.hasGroup (kf : KeyFile) (g : String) : Bool :=
  (kf.findGroup g).isSome

def KeyFile.findValue (kf : KeyFile) (g k : String) : Option KfValue :=
  (kf.findGroup g).bind fun gr => (gr.keys.find? fun kv => kv.fst = k).map Prod.snd

def KeyFile.hasKey (kf : KeyFile) (g k : String) : Bool :=
  (kf.findValue g k).isSome

def KeyFile.getString (kf : KeyFile) (g k : String) : Option String :=
  match kf.findValue g k with
  | some (.vstr s) => some s
  | _ => none

def KeyFile.getStringList (kf : KeyFile) (g k : String) : Option (List String) :=
  match kf.findValue g k with
  | some (.vlist l) => some l
  | _ => none

def KeyFile.getBoolean (kf : KeyFile) (g k : String) : Option Bool :=
  match kf.findValue g k with
  | some (.vbool b) => some b
  | _ => none

/-- policy_load: compile one named group into a Policy.  The keys are read in
the order of the source (Actions, ActionContains, InUnixGroups, InNetGroups,
Result, ResultInverse, InUserNames, SubjectActive, SubjectLocal); the first
failing read aborts with `none` (handle_err).  Note the validity check of
the ResultInverse branch: the source tests `policy->response`, not
`policy->response_inverse`, after parsing the ResultInverse string, exactly
as embedded here. -/
def policy_load (kf : KeyFile) (section_id : String) : Option Policy :=
  if !kf.hasGroup section_id then none else
  (some (policy_new0 section_id)).bind (fun p =>
    if kf.hasKey section_id "Actions" then
      match kf.getStringList section_id "Actions" with
      | none => none
      | some l => some { p with actions := l, constraints := { p.constraints with actions := true } }
    else some p)
  |>.bind (fun p =>
    if kf.hasKey section_id "ActionContains" then
      match kf.getStringList section_id "ActionContains" with
      | none => none
      | some l => some { p with action_contains := l, constraints := { p.constraints with actionContains := true } }
    else some p)
  |>.bind (fun p =>
    if kf.hasKey section_id "InUnixGroups" then
      match kf.getStringList section_id "InUnixGroups" with
      | none => none
      | some l => some { p with unix_groups := l, constraints := { p.constraints with unixGroups := true } }
    else some p)
  |>.bind (fun p =>
    if kf.hasKey section_id "InNetGroups" then
      match kf.getStringList section_id "InNetGroups" with
      | none => none
      | some l => some { p with net_groups := l, constraints := { p.constraints with netGroups := true } }
    else some p)
  |>.bind (fun p =>
    if kf.hasKey section_id "Result" then
      match kf.getString section_id "Result" with
      | none => none
      | some s =>
        let r := policy_string_to_result (g_strstrip s)
        if r = PolkitImplicitAuthorization.unknown then none
        else some { p with response := r, constraints := { p.constraints with result := true } }
    else some p)
  |>.bind (fun p =>
    if kf.hasKey section_id "ResultInverse" then
      match kf.getString section_id "ResultInverse" with
      | none => none
      | some s =>
        let r := policy_string_to_result (g_strstrip s)
        if p.response = PolkitImplicitAuthorization.unknown then none
        else some { p with response_inverse := r, constraints := { p.constraints with resultInverse := true } }
    else some p)
  |>.bind (fun p =>
    if kf.hasKey section_id "InUserNames" then
      match kf.getStringList section_id "InUserNames" with
      | none => none
      | some l => some { p with unix_names := l, constraints := { p.constraints with unixNames := true } }
    else some p)
  |>.bind (fun p =>
    if kf.hasKey section_id "SubjectActive" then
      match kf.getBoolean section_id "SubjectActive" with
      | none => none
      | some b => some { p with require_active := b, constraints := { p.constraints with subjectActive := true } }
    else some p)
  |>.bind (fun p =>
    if kf.hasKey section_id "SubjectLocal" then
      match kf.getBoolean section_id "SubjectLocal" with
      | none => none
      | some b => some { p with require_local := b, constraints := { p.constraints with subjectLocal := true } }
    else some p)

/-- The loop of policy_file_load_rules: compile each named section (stripped)
in the order given, failing the whole list on the first failing section. -/
def policy_load_sections (kf : KeyFile) : List String → Option (List Policy)
  | [] => some []
  | s :: rest =>
    match policy_load kf (g_strstrip s) with
    | none => none
    | some p => (policy_load_sections kf rest).map (p :: ·)

/-- policy_file_load_rules: read the list of section names from the
[Policy] group under the given key and compile them in order. -/
def policy_file_load_rules (kf : KeyFile) (section_key : String) : Option (List Policy) :=
  match kf.getStringList "Policy" section_key with
  | none => none
  | some sections => policy_load_sections kf sections

/-- policy_file_new_from_path, after the file has been read and parsed by
GKeyFile (the I/O and INI parsing are external; an unreadable or unparsable
file is modelled by the caller passing no KeyFile at all).  A failing chain
fails the whole file; a file declaring neither Rules nor AdminRules yields
nothing. -/
def policy_file_new_from_path (kf : KeyFile) : Option PolicyFile :=
  match (if kf.hasKey "Policy" "Rules" then policy_file_load_rules kf "Rules" else some []) with
  | none => none
  | some normal =>
    match (if kf.hasKey "Policy" "AdminRules" then policy_file_load_rules kf "AdminRules" else some []) with
    | none => none
    | some admin =>
      if !kf.hasKey "Policy" "Rules" && !kf.hasKey "Policy" "AdminRules" then none
      else some { normal := normal, admin := admin }

/-! ## The rule-set loader (keyfileauthority.c) -/

/-- rules_file_name_cmp: base file names first, full paths as tie-break.
The source asserts that both paths contain a '/' and that the tie-break is
never 0 (two identical full paths never reach the sort). -/
def rules_file_name_cmp (a b : String) : Ordering :=
  match strcmp_ord (after_last_slash a.data) (after_last_slash b.data) with
  | .eq => strcmp_ord a.data b.data
  | o => o

/-- One readable rules directory: its path and its entries in readdir order.
A directory g_dir_open fails on is logged and skipped by the source, i.e.
it simply does not appear in this list. -/
structure FsDir where
  path : String
  entries : List String
deriving DecidableEq

/-- The collection loop of load_rules: for each directory in priority order,
prepend `dir/name` for every entry ending in ".keyrules". -/
def collect_rules_files (dirs : List FsDir) : List String :=
  dirs.foldl (fun acc d =>
    d.entries.foldl (fun acc name =>
      if g_str_has_suffix name ".keyrules" then (d.path ++ "/" ++ name) :: acc else acc) acc) []

/-- Insertion into a sorted list; `le a b` means a may stay before b. -/
def sort_insert (le : α → α → Bool) (x : α) : List α → List α
  | [] => [x]
  | y :: ys => if le x y then x :: y :: ys else y :: sort_insert le x ys

/-- A stable sort standing for g_list_sort (stable merge sort); on the
loader's inputs the comparator is a strict total order (full paths are
distinct), where every correct sort agrees. -/
def sort_by_cmp (le : α → α → Bool) (l : List α) : List α :=
  l.foldr (sort_insert le) []

/-- load_rules: collect, sort by rules_file_name_cmp, compile each file in
sorted order, skipping files that fail to load or compile, and link the
results in order.  `contents` stands for the file system: the GKeyFile a
path parses to, or none when g_key_file_load_from_file fails. -/
def load_rules (dirs : List FsDir) (contents : String → Option KeyFile) : List PolicyFile :=
  (sort_by_cmp (fun a b => rules_file_name_cmp a b != Ordering.gt) (collect_rules_files dirs)).filterMap
    fun path => (contents path).bind policy_file_new_from_path

/-- reload_rules: the source first frees the previous chain
(g_clear_pointer on priv->policy) and then runs load_rules from scratch;
the active policy afterwards is the fresh load result, whatever was active
before. -/
def reload_rules (dirs : List FsDir) (contents : String → Option KeyFile)
    (_previous : List PolicyFile) : List PolicyFile :=
  load_rules dirs contents

/-! ## The authority entry points (check and admin harvest) -/

/-- A polkit identity as the harvester produces them: the superuser fallback
polkit_unix_user_new (0), or whatever polkit_identity_from_string (external
polkit library code, abstracted as the `parse` parameter below) made of an
identity string. -/
inductive PolkitIdentity
  | unixUser (uid : Nat)
  | parsed (s : String)
deriving DecidableEq

/-- polkit_backend_keyfile_internal_build_admin: for each entry (stripped,
with the %sudo% token replaced by the wheel group) build "<prefix>:<entry>"
and parse it; entries that fail to parse are logged and dropped; parsed
identities are prepended to the accumulator. -/
def polkit_backend_keyfile_internal_build_admin
    (parse : String → Option PolkitIdentity) (wheel : String)
    (ret : List PolkitIdentity) (grouping : List String) (kind_tag : String) : List PolkitIdentity :=
  grouping.foldl (fun acc item =>
    let match_item := g_strstrip item
    let identifier := if match_item = "%sudo%" then wheel else match_item
    match parse (kind_tag ++ ":" ++ identifier) with
    | none => acc
    | some i => i :: acc) ret

/-- The harvest over the admin chain of one file: every rule contributes its
InUnixGroups, InUserNames and InNetGroups lists (when the bits are set),
tagged unix-group, unix-user and unix-netgroup. -/
def harvest_admin_file (parse : String → Option PolkitIdentity) (wheel : String)
    (acc : List PolkitIdentity) (f : PolicyFile) : List PolkitIdentity :=
  f.admin.foldl (fun acc p =>
    let acc := if p.constraints.unixGroups then
      polkit_backend_keyfile_internal_build_admin parse wheel acc p.unix_groups "unix-group" else acc
    let acc := if p.constraints.unixNames then
      polkit_backend_keyfile_internal_build_admin parse wheel acc p.unix_names "unix-user" else acc
    if p.constraints.netGroups then
      polkit_backend_keyfile_internal_build_admin parse wheel acc p.net_groups "unix-netgroup" else acc) acc

/-- The whole harvest walk of get_admin_auth_identities, reversed at the end
(the loops prepend). -/
def admin_harvest (parse : String → Option PolkitIdentity) (wheel : String)
    (files : List PolicyFile) : List PolkitIdentity :=
  (files.foldl (harvest_admin_file parse wheel) []).reverse

/-- polkit_backend_keyfile_authority_get_admin_auth_identities.
`prepared` records whether polkit_backend_keyfile_internal_prepare_context
succeeded; on failure the walk (and the reversal) is skipped via
`goto context_fail`.  An empty result is replaced by the single superuser
identity polkit_unix_user_new (0). -/
def polkit_backend_keyfile_authority_get_admin_auth_identities
    (parse : String → Option PolkitIdentity) (wheel : String)
    (files : List PolicyFile) (prepared : Bool) : List PolkitIdentity :=
  let ret := if prepared then admin_harvest parse wheel files else []
  if ret.isEmpty then [PolkitIdentity.unixUser 0] else ret

/-- polkit_backend_keyfile_authority_check_authorization_sync.  `prepared`
holds the PolicyContext when polkit_backend_keyfile_internal_prepare_context
succeeded, and nothing when it failed, in which case the check returns
NOT_AUTHORIZED outright.  A policy verdict of UNKNOWN defers to the implicit
authorization supplied by the caller. -/
def polkit_backend_keyfile_authority_check_authorization_sync
    (wheel : String) (files : List PolicyFile) (prepared : Option PolicyContext)
    (action_id : String) (implicit : PolkitImplicitAuthorization) : PolkitImplicitAuthorization :=
  match prepared with
  | none => .notAuthorized
  | some ctx =>
    let ret := policy_file_test wheel action_id ctx files
    if ret = .unknown then implicit else ret

/-! ## Shared lemmas -/

theorem strstr_found_iff (haystack needle : String) :
    strstr_found haystack needle = true ↔ needle.data <:+: haystack.data := by
  unfold strstr_found
  rw [List.any_eq_true]
  constructor
  · rintro ⟨i, _, hp⟩
    rw [decide_eq_true_eq] at hp
    exact List.infix_iff_prefix_suffix.mpr ⟨haystack.data.drop i, hp, List.drop_suffix i _⟩
  · rintro ⟨s, t, hst⟩
    rw [← hst]
    refine ⟨s.length, ?_, ?_⟩
    · rw [List.mem_range]
      simp [List.length_append]
      omega
    · rw [decide_eq_true_eq, List.append_assoc, List.drop_left]
      exact ⟨t, rfl⟩

theorem unix_groups_match_iff (wheel : String) (ctx : PolicyContext) (p : Policy) :
    unix_groups_match wheel ctx p = true ↔
      ∃ e ∈ p.unix_groups, (if g_strstrip e = "%sudo%" then wheel else g_strstrip e) ∈ ctx.groups := by
  simp [unix_groups_match, List.any_eq_true]

theorem unix_names_match_iff (ctx : PolicyContext) (p : Policy) :
    unix_names_match ctx p = true ↔ ∃ e ∈ p.unix_names, g_strstrip e = ctx.username := by
  simp [unix_names_match, List.any_eq_true]

/-- A policy with its InNetGroups data erased (list and constraint bit). -/
def scrub_net_policy (p : Policy) : Policy :=
  { p with net_groups := [], constraints := { p.constraints with netGroups := false } }

/-- A file with the InNetGroups data of every rule of both chains erased. -/
def scrub_net_file (f : PolicyFile) : PolicyFile :=
  { normal := f.normal.map scrub_net_policy, admin := f.admin.map scrub_net_policy }

theorem policy_test_scrub (wheel action_id : String) (ctx : PolicyContext) :
    ∀ ps : List Policy,
      policy_test wheel action_id ctx (ps.map scrub_net_policy) = policy_test wheel action_id ctx ps
  | [] => rfl
  | p :: rest => by
    have hm : policy_matches_action (scrub_net_policy p) action_id = policy_matches_action p action_id := rfl
    have ht : test_matched_rule wheel ctx (scrub_net_policy p) = test_matched_rule wheel ctx p := rfl
    have hi : (scrub_net_policy p).constraints.resultInverse = p.constraints.resultInverse := rfl
    have hr : (scrub_net_policy p).response_inverse = p.response_inverse := rfl
    simp only [List.map_cons, policy_test, hm, ht, hi, hr, policy_test_scrub wheel action_id ctx rest]

theorem policy_file_test_scrub (wheel action_id : String) (ctx : PolicyContext) :
    ∀ fs : List PolicyFile,
      policy_file_test wheel action_id ctx (fs.map scrub_net_file) = policy_file_test wheel action_id ctx fs
  | [] => rfl
  | f :: rest => by
    simp only [List.map_cons, policy_file_test, scrub_net_file,
      policy_test_scrub wheel action_id ctx f.normal,
      policy_file_test_scrub wheel action_id ctx rest]

/-! ## Claim C3 -/

/-- C3: when context preparation fails (the subject cannot be resolved), the
ordinary check returns the Deny verdict NOT_AUTHORIZED (never a grant
variant and never UNKNOWN deferring to the implicit default), and the admin
harvest returns exactly the single superuser fallback identity
polkit_unix_user_new (0). -/
theorem c3_context_failure_denies :
    ∀ (parse : String → Option PolkitIdentity) (wheel : String) (files : List PolicyFile)
      (action_id : String) (implicit : PolkitImplicitAuthorization),
    polkit_backend_keyfile_authority_check_authorization_sync wheel files none action_id implicit
      = PolkitImplicitAuthorization.notAuthorized ∧
    polkit_backend_keyfile_authority_get_admin_auth_identities parse wheel files false
      = [PolkitIdentity.unixUser 0] := by
  intro parse wheel files action_id implicit
  exact ⟨rfl, rfl⟩

/-! ## Claim C4 -/

/-- C4: the admin harvest never returns an empty list, and whenever the walk
over every admin chain yields no well-formed identity at all (in particular
when no admin rules exist), the result is exactly the superuser identity. -/
theorem c4_admin_never_empty :
    ∀ (parse : String → Option PolkitIdentity) (wheel : String)
      (files : List PolicyFile) (prepared : Bool),
    polkit_backend_keyfile_authority_get_admin_auth_identities parse wheel files prepared ≠ [] ∧
    (admin_harvest parse wheel files = [] →
      polkit_backend_keyfile_authority_get_admin_auth_identities parse wheel files prepared
        = [PolkitIdentity.unixUser 0]) := by
  intro parse wheel files prepared
  unfold polkit_backend_keyfile_authority_get_admin_auth_identities
  constructor
  · cases hp : prepared
    · simp
    · cases hh : admin_harvest parse wheel files <;> simp [hh]
  · intro hh
    cases hp : prepared <;> simp [hh]

/-- C4 witness: an empty rule-set harvests nothing, and the harvest falls
back to the superuser identity. -/
theorem c4_admin_never_empty_witness :
    polkit_backend_keyfile_authority_get_admin_auth_identities (fun _ => none) "wheel" [] true
      = [PolkitIdentity.unixUser 0] :=
  (c4_admin_never_empty (fun _ => none) "wheel" [] true).2 rfl

/-! ## Claim C5 -/

/-- C5: a rule declaring neither Actions nor ActionContains never passes the
action test, and whenever the action test fails the rule contributes
nothing: evaluation of the chain headed by the rule equals evaluation of the
rest of the chain (UNKNOWN when the rule is last). -/
theorem c5_action_gatekeeper :
    ∀ (wheel action_id : String) (ctx : PolicyContext) (p : Policy) (rest : List Policy),
    (p.constraints.actions = false ∧ p.constraints.actionContains = false →
      policy_matches_action p action_id = false) ∧
    (policy_matches_action p action_id = false →
      policy_test wheel action_id ctx (p :: rest) = policy_test wheel action_id ctx rest) ∧
    (policy_matches_action p action_id = false →
      policy_test wheel action_id ctx [p] = PolkitImplicitAuthorization.unknown) := by
  intro wheel action_id ctx p rest
  refine ⟨?_, ?_, ?_⟩
  · rintro ⟨h1, h2⟩
    simp [policy_matches_action, h1, h2]
  · intro h
    simp [policy_test, h]
  · intro h
    simp [policy_test, h]

def c5_p : Policy :=
  { policy_new0 "inert" with
      unix_names := ["alice"]
      response := .authorized
      constraints := { no_constraints with unixNames := true, result := true } }

def simple_ctx : PolicyContext :=
  { subject_is_local := true, subject_is_active := true, groups := ["wheel"], username := "alice" }

/-- C5 witness: a rule with no action constraint yields UNKNOWN even though
its other constraints and result would match. -/
theorem c5_action_gatekeeper_witness :
    policy_test "wheel" "org.example.any" simple_ctx [c5_p] = PolkitImplicitAuthorization.unknown :=
  (c5_action_gatekeeper "wheel" "org.example.any" simple_ctx c5_p []).2.2 (by decide)

/-! ## Claim C10 -/

/-- C10: verdicts are independent of the InNetGroups data: two rule chains
(and two rule-sets) that agree after erasing every rule's net_groups list
and netgroup constraint bit produce the same verdict for every action and
context, at the single-chain level and at the whole-rule-set level. -/
theorem c10_netgroups_no_influence :
    ∀ (wheel action_id : String) (ctx : PolicyContext)
      (ps1 ps2 : List Policy) (fs1 fs2 : List PolicyFile),
    (ps1.map scrub_net_policy = ps2.map scrub_net_policy →
      policy_test wheel action_id ctx ps1 = policy_test wheel action_id ctx ps2) ∧
    (fs1.map scrub_net_file = fs2.map scrub_net_file →
      policy_file_test wheel action_id ctx fs1 = policy_file_test wheel action_id ctx fs2) := by
  intro wheel action_id ctx ps1 ps2 fs1 fs2
  constructor
  · intro h
    rw [← policy_test_scrub wheel action_id ctx ps1, h, policy_test_scrub]
  · intro h
    rw [← policy_file_test_scrub wheel action_id ctx fs1, h, policy_file_test_scrub]

def c10_file_a : PolicyFile :=
  ⟨[{ policy_new0 "r" with
        actions := ["*"]
        net_groups := ["admins"]
        response := .authorized
        constraints := { no_constraints with actions := true, netGroups := true, result := true } }], []⟩

def c10_file_b : PolicyFile :=
  ⟨[{ policy_new0 "r" with
        actions := ["*"]
        response := .authorized
        constraints := { no_constraints with actions := true, result := true } }], []⟩

/-- C10 witness: a rule-set with a netgroup constraint and one without it
agree after scrubbing and yield the same verdict. -/
theorem c10_netgroups_no_influence_witness :
    policy_file_test "wheel" "org.x" simple_ctx [c10_file_a]
      = policy_file_test "wheel" "org.x" simple_ctx [c10_file_b] :=
  (c10_netgroups_no_influence "wheel" "org.x" simple_ctx [] [] [c10_file_a] [c10_file_b]).2 (by decide)

/-! ## Claim C1 -/

def c1_r1 : Policy :=
  { policy_new0 "r1" with
      actions := ["*"]
      require_active := true
      response_inverse := .notAuthorized
      constraints := { no_constraints with actions := true, subjectActive := true, resultInverse := true } }

def c1_r2 : Policy :=
  { policy_new0 "r2" with
      actions := ["*"]
      response := .authorized
      constraints := { no_constraints with actions := true, result := true } }

def c1_ctx : PolicyContext :=
  { subject_is_local := true, subject_is_active := false, groups := [], username := "alice" }

/-- C1 counterexample: a rule whose action matches, whose present
SubjectActive constraint fails, and which declares ResultInverse = no, does
NOT return its inverse verdict: the SubjectActive failure path jumps to
`unmatched` without clearing `conditions`, so the inverse branch is skipped
and evaluation falls through to the next rule of the same step, which
answers AUTHORIZED here. -/
theorem c1_subject_active_skips_inverse :
    policy_matches_action c1_r1 "org.x" = true ∧
    c1_r1.constraints.subjectActive = true ∧
    c1_ctx.subject_is_active ≠ c1_r1.require_active ∧
    c1_r1.constraints.resultInverse = true ∧
    c1_r1.response_inverse = PolkitImplicitAuthorization.notAuthorized ∧
    policy_test "wheel" "org.x" c1_ctx [c1_r1, c1_r2] = PolkitImplicitAuthorization.authorized := by
  decide

/-- C1 amended: for a rule whose action matched and which declares
ResultInverse, the inverse verdict is returned immediately (no fall-through
to later rules of the same step) when the failing present constraint is
SubjectLocal, InUnixGroups or InUserNames — provided a present SubjectActive
constraint passes; when the SubjectActive constraint itself fails, the rule
instead contributes nothing and evaluation advances to the next rule. -/
theorem c1_inverse_result_amended :
    ∀ (wheel action_id : String) (ctx : PolicyContext) (p : Policy) (rest : List Policy),
    policy_matches_action p action_id = true →
    p.constraints.resultInverse = true →
    (((p.constraints.subjectActive = true → ctx.subject_is_active = p.require_active) →
      ((p.constraints.subjectLocal = true ∧ ctx.subject_is_local ≠ p.require_local) ∨
       ((p.constraints.subjectLocal = true → ctx.subject_is_local = p.require_local) ∧
        ((p.constraints.unixGroups = true ∧ unix_groups_match wheel ctx p = false) ∨
         ((p.constraints.unixGroups = true → unix_groups_match wheel ctx p = true) ∧
          p.constraints.unixNames = true ∧ unix_names_match ctx p = false)))) →
      policy_test wheel action_id ctx (p :: rest) = p.response_inverse) ∧
     (p.constraints.subjectActive = true → ctx.subject_is_active ≠ p.require_active →
      policy_test wheel action_id ctx (p :: rest) = policy_test wheel action_id ctx rest)) := by
  intro wheel action_id ctx p rest hmatch hinv
  constructor
  · intro hactive hfail
    have g1 : (p.constraints.subjectActive && (ctx.subject_is_active != p.require_active)) = false := by
      cases hsa : p.constraints.subjectActive
      · simp
      · simp [hactive hsa]
    have hout : test_matched_rule wheel ctx p = .failed false := by
      unfold test_matched_rule
      rcases hfail with ⟨hl, hlne⟩ | ⟨hlok, hgroups⟩
      · simp [g1, hl, bne_iff_ne, hlne]
      · have g2 : (p.constraints.subjectLocal && (ctx.subject_is_local != p.require_local)) = false := by
          cases hsl : p.constraints.subjectLocal
          · simp
          · simp [hlok hsl]
        rcases hgroups with ⟨hg, hgf⟩ | ⟨hgok, hn, hnf⟩
        · simp [g1, g2, hg, hgf]
        · have g3 : (p.constraints.unixGroups && !unix_groups_match wheel ctx p) = false := by
            cases hug : p.constraints.unixGroups
            · simp
            · simp [hgok hug]
          simp [g1, g2, g3, hn, hnf]
    simp [policy_test, hmatch, hout, hinv]
  · intro ha hne
    have hout : test_matched_rule wheel ctx p = .failed true := by
      unfold test_matched_rule
      simp [ha, bne_iff_ne, hne]
    simp [policy_test, hmatch, hout]

def c1w_p : Policy :=
  { policy_new0 "local-only" with
      actions := ["*"]
      require_local := true
      response_inverse := .notAuthorized
      constraints := { no_constraints with actions := true, subjectLocal := true, resultInverse := true } }

def c1w_ctx : PolicyContext :=
  { subject_is_local := false, subject_is_active := true, groups := [], username := "alice" }

/-- C1 witness: a remote subject failing a SubjectLocal constraint receives
the inverse verdict immediately, even with another rule behind it. -/
theorem c1_inverse_result_witness :
    policy_test "wheel" "org.x" c1w_ctx [c1w_p, c1_r2] = PolkitImplicitAuthorization.notAuthorized :=
  (c1_inverse_result_amended "wheel" "org.x" c1w_ctx c1w_p [c1_r2] (by decide) (by decide)).1
    (fun h => by simp [c1w_p, policy_new0, no_constraints] at h)
    (Or.inl (by decide))

/-! ## Claim C2 -/

def c2_kf_badInverse : KeyFile :=
  ⟨[⟨"Policy", [("Rules", .vlist ["r1"])]⟩,
    ⟨"r1", [("Actions", .vlist ["*"]), ("ResultInverse", .vstr "bogus")]⟩]⟩

def c2_kf_badResult : KeyFile :=
  ⟨[⟨"Policy", [("Rules", .vlist ["r1"])]⟩,
    ⟨"r1", [("Actions", .vlist ["*"]), ("Result", .vstr "bogus")]⟩]⟩

/-- C2 (code bug): an unrecognized Result string fails the group and the
whole file, as the claim states; but an unrecognized ResultInverse string
does NOT — the validity check after parsing ResultInverse reads
policy->response (zero-filled to NOT_AUTHORIZED, or already validated),
never policy->response_inverse, so the file loads and the rule silently
carries ResultInverse = UNKNOWN. -/
theorem c2_result_inverse_not_validated :
    (policy_file_new_from_path c2_kf_badInverse).isSome = true ∧
    ((policy_file_new_from_path c2_kf_badInverse).map fun f =>
      f.normal.map fun p => p.response_inverse) = some [PolkitImplicitAuthorization.unknown] ∧
    policy_file_new_from_path c2_kf_badResult = none := by
  decide

/-! ## Claim C9 -/

def c9_file : PolicyFile :=
  ⟨[{ policy_new0 "r" with
        actions := ["*"]
        response := .authorized
        constraints := { no_constraints with actions := true, result := true } }], []⟩

/-- C9 counterexample: a reload over a directory whose only rules file fails
to load leaves the active policy EMPTY, not the previously active rule-set:
reload_rules first discards the previous chain and then rebuilds from
scratch. -/
theorem c9_failed_reload_empties_policy :
    reload_rules [⟨"/etc/polkit-1/rules.d", ["50-default.keyrules"]⟩] (fun _ => none) [c9_file] = [] ∧
    [c9_file] ≠ ([] : List PolicyFile) := by
  exact ⟨rfl, by simp⟩

/-- C9 amended: every reload rebuilds the rule-set from scratch — the new
active policy equals a fresh loader pass, independent of the previously
active rule-set — and when nothing can be loaded (no readable directory)
the active policy becomes empty rather than keeping the previous rule-set. -/
theorem c9_reload_from_scratch_amended :
    ∀ (dirs : List FsDir) (contents : String → Option KeyFile) (old1 old2 : List PolicyFile),
    reload_rules dirs contents old1 = load_rules dirs contents ∧
    reload_rules dirs contents old1 = reload_rules dirs contents old2 ∧
    reload_rules [] contents old1 = [] := by
  intro dirs contents old1 old2
  exact ⟨rfl, rfl, rfl⟩

/-! ## Claim C6 -/

/-- The action matcher exactly as claim C6 words it, for refinement
comparison against policy_matches_action: an action_exact entry string-equal
to the action id or to the literal wildcard, or an action_substring entry
occurring inside the action id — with no whitespace trimming of the
entries. -/
def claim_action_matches (p : Policy) (action_id : String) : Bool :=
  (p.constraints.actions &&
    p.actions.any fun a => decide (a = action_id) || decide (a = "*"))
  ||
  (p.constraints.actionContains &&
    p.action_contains.any fun a => strstr_found action_id a)

def c6_p : Policy :=
  { policy_new0 "r" with
      actions := [" org.freedesktop.example"]
      response := .authorized
      constraints := { no_constraints with actions := true, result := true } }

/-- C6 counterexample: an Actions entry carrying a leading space (as GLib
list parsing produces for "a; b") matches the action id after g_strstrip,
although it is not string-equal to it; the claimed characterization without
trimming is therefore false on this rule. -/
theorem c6_action_equality_counterexample :
    policy_matches_action c6_p "org.freedesktop.example" = true ∧
    policy_test "wheel" "org.freedesktop.example" simple_ctx [c6_p] = PolkitImplicitAuthorization.authorized ∧
    claim_action_matches c6_p "org.freedesktop.example" = false := by
  decide

/-- C6 amended: the action matches if and only if some Actions entry, after
trimming surrounding ASCII whitespace, equals the action id or equals the
literal one-character wildcard, or some ActionContains entry, after
trimming, occurs as a contiguous substring of the action id; an entry with
an embedded star is still compared literally (no globbing). -/
theorem c6_action_match_amended :
    ∀ (p : Policy) (action_id : String),
    policy_matches_action p action_id = true ↔
      ((p.constraints.actions = true ∧
        ∃ a ∈ p.actions, g_strstrip a = action_id ∨ g_strstrip a = "*") ∨
       (p.constraints.actionContains = true ∧
        ∃ s ∈ p.action_contains, (g_strstrip s).data <:+: action_id.data)) := by
  intro p action_id
  simp [policy_matches_action, List.any_eq_true, strstr_found_iff]

/-- C6 witness: an entry with an embedded star is not a glob — it fails to
match an action id it would match as a glob, while the literal wildcard
matches; the amended characterization decides both. -/
theorem c6_action_match_amended_witness :
    policy_matches_action
      { policy_new0 "glob" with
          actions := ["org.example.*action"]
          constraints := { no_constraints with actions := true } } "org.example.myaction" = false ∧
    policy_matches_action
      { policy_new0 "star" with
          actions := ["*"]
          constraints := { no_constraints with actions := true } } "org.example.myaction" = true := by
  constructor
  · have h := c6_action_match_amended
      { policy_new0 "glob" with
          actions := ["org.example.*action"]
          constraints := { no_constraints with actions := true } } "org.example.myaction"
    cases hb : policy_matches_action
      { policy_new0 "glob" with
          actions := ["org.example.*action"]
          constraints := { no_constraints with actions := true } } "org.example.myaction"
    · rfl
    · exact absurd (h.mp hb) (by decide)
  · exact (c6_action_match_amended
      { policy_new0 "star" with
          actions := ["*"]
          constraints := { no_constraints with actions := true } } "org.example.myaction").mpr
      (Or.inl (by decide))

/-! ## Claim C7 -/

def MatchedRuleOutcome.isPassed : MatchedRuleOutcome → Bool
  | .passed _ => true
  | .failed _ => false

def c7_p : Policy :=
  { policy_new0 "g" with
      actions := ["*"]
      unix_groups := [" wheel"]
      response := .authorized
      constraints := { no_constraints with actions := true, unixGroups := true, result := true } }

def c7_ctx : PolicyContext :=
  { subject_is_local := true, subject_is_active := true, groups := ["wheel"], username := "alice" }

/-- C7 counterexample: an InUnixGroups entry carrying a leading space passes
the constraint (the rule returns its Result), although no raw entry —
even after wheel substitution — is equal to a context group; the claimed
characterization without trimming is therefore false on this rule. -/
theorem c7_group_equality_counterexample :
    policy_test "wheel" "org.a" c7_ctx [c7_p] = PolkitImplicitAuthorization.authorized ∧
    ¬ ∃ e ∈ c7_p.unix_groups, (if e = "%sudo%" then "wheel" else e) ∈ c7_ctx.groups := by
  decide

/-- C7 amended: for a rule whose action matched, the constraint phase
succeeds (reaches the Result fall-through) if and only if: a present
SubjectActive or SubjectLocal constraint agrees exactly with the context
flag, a present InUnixGroups constraint has some entry that — after
trimming surrounding whitespace and substituting the literal token %sudo%
with the build-configured wheel group — equals some context group, and a
present InUserNames constraint has some entry that, after trimming, equals
the context username. -/
theorem c7_constraint_semantics_amended :
    ∀ (wheel : String) (ctx : PolicyContext) (p : Policy),
    (test_matched_rule wheel ctx p).isPassed = true ↔
      ((p.constraints.subjectActive = true → ctx.subject_is_active = p.require_active) ∧
       (p.constraints.subjectLocal = true → ctx.subject_is_local = p.require_local) ∧
       (p.constraints.unixGroups = true →
         ∃ e ∈ p.unix_groups,
           (if g_strstrip e = "%sudo%" then wheel else g_strstrip e) ∈ ctx.groups) ∧
       (p.constraints.unixNames = true →
         ∃ e ∈ p.unix_names, g_strstrip e = ctx.username)) := by
  intro wheel ctx p
  rw [← unix_groups_match_iff wheel ctx p, ← unix_names_match_iff ctx p]
  unfold test_matched_rule
  split_ifs with h1 h2 h3 h4 <;>
    simp_all [MatchedRuleOutcome.isPassed, bne_iff_ne]

/-- C7 witness: the spec scenario — InUnixGroups=%sudo% with the wheel group
configured as "wheel" passes for a context in "wheel". -/
theorem c7_constraint_semantics_witness :
    (test_matched_rule "wheel" c7_ctx
      { policy_new0 "sudoers" with
          unix_groups := ["%sudo%"]
          constraints := { no_constraints with unixGroups := true } }).isPassed = true :=
  (c7_constraint_semantics_amended "wheel" c7_ctx
      { policy_new0 "sudoers" with
          unix_groups := ["%sudo%"]
          constraints := { no_constraints with unixGroups := true } }).mpr (by decide)

/-! ## Claim C8 -/

theorem strcmp_ord_self : ∀ l : List Char, strcmp_ord l l = .eq
  | [] => rfl
  | a :: as => by
    unfold strcmp_ord
    simp [strcmp_ord_self as]

theorem strcmp_ord_flip : ∀ {a b : List Char}, strcmp_ord a b = .lt → strcmp_ord b a = .gt
  | [], [], h => by simp [strcmp_ord] at h
  | [], _ :: _, _ => rfl
  | _ :: _, [], h => by simp [strcmp_ord] at h
  | a :: as, b :: bs, h => by
    unfold strcmp_ord at h ⊢
    rcases Nat.lt_trichotomy a.toNat b.toNat with h1 | h1 | h1
    · have h2 : ¬ b.toNat < a.toNat := by omega
      simp [h1, h2]
    · have h2 : ¬ a.toNat < b.toNat := by omega
      have h3 : ¬ b.toNat < a.toNat := by omega
      simp only [if_neg h2, if_neg h3] at h ⊢
      exact strcmp_ord_flip h
    · have h2 : ¬ a.toNat < b.toNat := by omega
      simp [h1, h2] at h

theorem takeWhile_until_slash :
    ∀ (l1 l2 : List Char), (∀ c ∈ l1, c ≠ '/') →
      (l1 ++ '/' :: l2).takeWhile (fun c => decide (c ≠ '/')) = l1
  | [], l2, _ => by simp [List.takeWhile]
  | c :: l1, l2, h => by
    have hc : c ≠ '/' := h c (by simp)
    rw [List.cons_append, List.takeWhile_cons_of_pos (by simp [hc]),
      takeWhile_until_slash l1 l2 (fun x hx => h x (by simp [hx]))]

theorem after_last_slash_append (p n : List Char) (h : ∀ c ∈ n, c ≠ '/') :
    after_last_slash (p ++ '/' :: n) = n := by
  unfold after_last_slash
  rw [List.reverse_append, List.reverse_cons, List.append_assoc, List.singleton_append,
    takeWhile_until_slash n.reverse p.reverse (fun c hc => h c (List.mem_reverse.mp hc)),
    List.reverse_reverse]

theorem slash_path_data (p n : String) : (p ++ "/" ++ n).data = p.data ++ '/' :: n.data := by
  rw [String.data_append, String.data_append, List.append_assoc]
  rfl

def c8_kf_yes : KeyFile :=
  ⟨[⟨"Policy", [("Rules", .vlist ["r"])]⟩,
    ⟨"r", [("Actions", .vlist ["*"]), ("Result", .vstr "yes")]⟩]⟩

def c8_kf_no : KeyFile :=
  ⟨[⟨"Policy", [("Rules", .vlist ["r"])]⟩,
    ⟨"r", [("Actions", .vlist ["*"]), ("Result", .vstr "no")]⟩]⟩

def c8_dirs : List FsDir := [⟨"/usr", ["f.keyrules"]⟩, ⟨"/etc", ["f.keyrules"]⟩]

def c8_contents : String → Option KeyFile := fun s =>
  if s = "/usr/f.keyrules" then some c8_kf_yes
  else if s = "/etc/f.keyrules" then some c8_kf_no
  else none

/-- C8 counterexample: two files named f.keyrules, the first-priority
directory being /usr (holding the grant rule) and the second /etc (holding
the deny rule).  The comparator ties-break on the full path alone, not on
the position in the priority list, so the SECOND directory's file sorts
first: the loaded chain answers deny first and the whole evaluation returns
deny — against the claim, which places the first directory's file earlier
(the grant verdict). -/
theorem c8_priority_order_counterexample :
    (load_rules c8_dirs c8_contents).map (fun f => policy_test "wheel" "org.a" simple_ctx f.normal)
      = [PolkitImplicitAuthorization.notAuthorized, PolkitImplicitAuthorization.authorized] ∧
    policy_file_test "wheel" "org.a" simple_ctx (load_rules c8_dirs c8_contents)
      = PolkitImplicitAuthorization.notAuthorized := by
  decide

/-- C8 amended: when two rule files share a base name and the first
directory's full path ALSO sorts lexicographically before the second's (as
the default configuration guarantees, the system-configuration directory
ordering before the vendor-data directory), the comparator places the first
directory's file earlier, both files are loaded and linked in that order,
and evaluation consults the first file's normal chain first, using the
second only when the first yields UNKNOWN. -/
theorem c8_same_basename_amended :
    ∀ (p1 p2 name : String) (contents : String → Option KeyFile) (kf1 kf2 : KeyFile)
      (F1 F2 : PolicyFile),
    (∀ c ∈ name.data, c ≠ '/') →
    g_str_has_suffix name ".keyrules" = true →
    strcmp_ord (p1 ++ "/" ++ name).data (p2 ++ "/" ++ name).data = .lt →
    contents (p1 ++ "/" ++ name) = some kf1 →
    contents (p2 ++ "/" ++ name) = some kf2 →
    policy_file_new_from_path kf1 = some F1 →
    policy_file_new_from_path kf2 = some F2 →
    load_rules [⟨p1, [name]⟩, ⟨p2, [name]⟩] contents = [F1, F2] ∧
    (∀ (wheel action_id : String) (ctx : PolicyContext),
      (policy_test wheel action_id ctx F1.normal ≠ PolkitImplicitAuthorization.unknown →
        policy_file_test wheel action_id ctx (load_rules [⟨p1, [name]⟩, ⟨p2, [name]⟩] contents)
          = policy_test wheel action_id ctx F1.normal) ∧
      (policy_test wheel action_id ctx F1.normal = PolkitImplicitAuthorization.unknown →
        policy_file_test wheel action_id ctx (load_rules [⟨p1, [name]⟩, ⟨p2, [name]⟩] contents)
          = policy_test wheel action_id ctx F2.normal)) := by
  intro p1 p2 name contents kf1 kf2 F1 F2 hns hsuf hlt hc1 hc2 hf1 hf2
  have hbase1 : after_last_slash (p1 ++ "/" ++ name).data = name.data := by
    rw [slash_path_data]
    exact after_last_slash_append _ _ hns
  have hbase2 : after_last_slash (p2 ++ "/" ++ name).data = name.data := by
    rw [slash_path_data]
    exact after_last_slash_append _ _ hns
  have hcmp : rules_file_name_cmp (p2 ++ "/" ++ name) (p1 ++ "/" ++ name) = .gt := by
    unfold rules_file_name_cmp
    rw [hbase1, hbase2, strcmp_ord_self]
    exact strcmp_ord_flip hlt
  have hcollect : collect_rules_files [⟨p1, [name]⟩, ⟨p2, [name]⟩]
      = [p2 ++ "/" ++ name, p1 ++ "/" ++ name] := by
    simp [collect_rules_files, hsuf]
  have hload : load_rules [⟨p1, [name]⟩, ⟨p2, [name]⟩] contents = [F1, F2] := by
    unfold load_rules
    rw [hcollect]
    simp [sort_by_cmp, sort_insert, hcmp, List.filterMap, hc1, hc2, hf1, hf2]
  refine ⟨hload, ?_⟩
  intro wheel action_id ctx
  rw [hload]
  constructor
  · intro h
    simp [policy_file_test, h]
  · intro h
    simp only [policy_file_test, h, if_pos]
    cases h2 : policy_test wheel action_id ctx F2.normal <;> simp [h2]

def c8w_contents : String → Option KeyFile := fun s =>
  if s = "/etc/10-admin.keyrules" then some c8_kf_no
  else if s = "/usr/10-admin.keyrules" then some c8_kf_yes
  else none

def c8w_F_no : PolicyFile :=
  ⟨[{ policy_new0 "r" with
        actions := ["*"]
        response := .notAuthorized
        constraints := { no_constraints with actions := true, result := true } }], []⟩

def c8w_F_yes : PolicyFile :=
  ⟨[{ policy_new0 "r" with
        actions := ["*"]
        response := .authorized
        constraints := { no_constraints with actions := true, result := true } }], []⟩

/-- C8 witness: with /etc ordering before /usr both in the priority list and
lexicographically, the /etc file is linked ahead of the /usr file. -/
theorem c8_same_basename_witness :
    load_rules [⟨"/etc", ["10-admin.keyrules"]⟩, ⟨"/usr", ["10-admin.keyrules"]⟩] c8w_contents
      = [c8w_F_no, c8w_F_yes] :=
  (c8_same_basename_amended "/etc" "/usr" "10-admin.keyrules" c8w_contents c8_kf_no c8_kf_yes
    c8w_F_no c8w_F_yes (by decide) (by decide) (by decide) (by decide) (by decide)
    (by decide) (by decide)).1
